import Mathlib

/-!
Shallow embedding of the ig-wva provisioning optimizer
(src/ilp_tools/ilp_solver.py, src/ilp_tools/data_structures.py) and of the
dataset bucketization helper
(src/request_distribution_service/process_dataset.py).

Python floats (rates, costs, throughputs, solver variable values) are
modelled as rationals; the `float('inf')` sentinel of the load matrix is
modelled as `none : Option ℚ`.  Python dicts that are only iterated in
insertion order are modelled as association lists.  The external MILP
backend (`pywraplp`) is modelled as an explicit `SolverOutcome` argument:
a status together with the variable values the backend would report, so
that the driver's post-processing can be analysed for every possible
backend answer.
-/

namespace IgWva

/-- `WorkerUnit` from `data_structures.py`: a worker (MSRS) type. -/
structure WorkerUnit where
  id : String
  acceleratorType : String
  acceleratorCount : Nat
  modelServerType : String
  cost : ℚ
  maxLimit : Option ℤ := none
  deriving DecidableEq, Repr

/-- `Slice` from `data_structures.py`: a portion of one request type's rate. -/
structure Slice where
  id : Nat
  requestTypeId : String
  ratePortion : ℚ
  deriving DecidableEq, Repr

/--
Step 1 of `solve_provisioning_ilp` (ilp_solver.py lines 35-49): turn the
demand distribution into slices.  The integer `sliceFactor` argument is
threaded through the recursion because the Python code mutates the local
`slice_factor` variable (clamping it to 1) inside the loop.
-/
def createSlicesAux : List (String × ℚ) → ℤ → Nat → List Slice
  | [], _, _ => []
  | (reqTypeId, totalRate) :: rest, sliceFactor, counter =>
    if totalRate ≤ 0 then
      createSlicesAux rest sliceFactor counter
    else
      let sf := if sliceFactor ≤ 0 then 1 else sliceFactor
      let ratePortion := totalRate / (sf : ℚ)
      if ratePortion < 1 / 1000000 then
        if totalRate > 1 / 1000000000 then
          ⟨counter, reqTypeId, totalRate⟩ :: createSlicesAux rest sf (counter + 1)
        else
          createSlicesAux rest sf counter
      else
        ((List.range sf.toNat).map fun i => ⟨counter + i, reqTypeId, ratePortion⟩)
          ++ createSlicesAux rest sf (counter + sf.toNat)

/-- The slicer of `solve_provisioning_ilp`, starting from slice id 0. -/
def createSlices (distributionData : List (String × ℚ)) (sliceFactor : ℤ) : List Slice :=
  createSlicesAux distributionData sliceFactor 0

/--
Step 2 of `solve_provisioning_ilp` (ilp_solver.py lines 56-68): the load a
slice puts on one instance of a worker type.  `none` models the
`float('inf')` sentinel (profile key missing, or throughput ≤ 0).
-/
def computeLoad (profileData : List ((String × String) × ℚ)) (w : WorkerUnit)
    (s : Slice) : Option ℚ :=
  match profileData.lookup (w.id, s.requestTypeId) with
  | some maxTput => if maxTput > 0 then some (s.ratePortion / maxTput) else none
  | none => none

/--
Step 4 of `solve_provisioning_ilp` (ilp_solver.py lines 84-92): the keys
`(s.id, w.id)` for which a binary variable `A_{s,w}` is created, in the
creation order of the Python loops (slices outer, workers inner).  A pair
is included exactly when its load-matrix entry is finite.
-/
def aPairs (slices : List Slice) (workerUnits : List WorkerUnit)
    (profileData : List ((String × String) × ℚ)) : List (Nat × String) :=
  slices.flatMap fun s =>
    workerUnits.filterMap fun w =>
      if (computeLoad profileData w s).isSome then some (s.id, w.id) else none

/-- The status codes of the `pywraplp` backend distinguished by the driver. -/
inductive SolverStatus where
  | optimal
  | feasible
  | infeasible
  | unbounded
  | abnormal
  | notSolved
  | modelInvalid
  deriving DecidableEq, Repr

/--
What the MILP backend reports back: a status, the value of each integer
variable `B_j` (keyed by worker id) and of each binary variable `A_{s,w}`
(keyed by slice id and worker id).
-/
structure SolverOutcome where
  status : SolverStatus
  bValue : String → ℚ
  aValue : Nat → String → ℚ

/-- The return type of `solve_provisioning_ilp`:
`(optimal_counts, slice_assignments, slices)`. -/
abbrev SolverResult :=
  Option (List (String × ℤ)) × Option (List (Nat × String)) × List Slice

/--
Step 8 of `solve_provisioning_ilp` (ilp_solver.py lines 138-169): result
extraction.  On `OPTIMAL`, counts are `⌈B_j − 1e-6⌉` for every worker, and
each slice is assigned to the first worker (in input order) whose `A`
variable exists and has value above 0.5 — the inner loop breaks at the
first match, and a slice with no such worker is silently dropped from the
assignment map.  Every other status yields `(None, None, slices)`.
-/
def processResults (workerUnits : List WorkerUnit) (slices : List Slice)
    (aP : List (Nat × String)) (outcome : SolverOutcome) : SolverResult :=
  match outcome.status with
  | .optimal =>
    (some (workerUnits.map fun w => (w.id, ⌈outcome.bValue w.id - 1 / 1000000⌉)),
     some (slices.filterMap fun s =>
       (workerUnits.find? fun w =>
           decide ((s.id, w.id) ∈ aP) && decide (outcome.aValue s.id w.id > 1 / 2)).map
         fun w => (s.id, w.id)),
     slices)
  | _ => (none, none, slices)

/--
`solve_provisioning_ilp` (ilp_solver.py lines 22-169).  If no slices are
produced it returns the all-zero plan without consulting the backend
(lines 51-53); otherwise the model is built (its `A` keys are `aPairs`)
and the backend's answer — the `outcome` argument — is post-processed.
-/
def solveProvisioningIlp (workerUnits : List WorkerUnit)
    (profileData : List ((String × String) × ℚ))
    (distributionData : List (String × ℚ)) (sliceFactor : ℤ)
    (outcome : SolverOutcome) : SolverResult :=
  let slices := createSlices distributionData sliceFactor
  if slices.length = 0 then
    (some (workerUnits.map fun w => (w.id, (0 : ℤ))), some [], slices)
  else
    processResults workerUnits slices (aPairs slices workerUnits profileData) outcome

/--
`_get_power_of_two_bucket` from
`src/request_distribution_service/process_dataset.py` (lines 11-18), with
`math.floor(math.log2 n)` rendered as `Nat.log2 n` (the exact base-2
integer logarithm) and the f-string rendered by `toString` concatenation.
-/
def getPowerOfTwoBucket (n : Nat) : String :=
  if n ≤ 1 then "0-1"
  else
    let k := Nat.log2 n
    toString (2 ^ k) ++ "-" ++ toString (2 ^ (k + 1) - 1)

/-!
Spec-side view of the slicer (claim C3): per-entry portions, stated the way
the claim states them, with `k = max sliceFactor 1`.
-/

/-- The portions the slicer is claimed to emit for one demand entry. -/
def claimEntryPortions (sliceFactor : ℤ) (totalRate : ℚ) : List ℚ :=
  let k := max sliceFactor 1
  if totalRate ≤ 0 then []
  else if totalRate / (k : ℚ) < 1 / 1000000 then
    if totalRate > 1 / 1000000000 then [totalRate] else []
  else List.replicate k.toNat (totalRate / (k : ℚ))

/-- Attach ids `n, n+1, n+2, …` in order to a list of
`(requestTypeId, portion)` pairs. -/
def numberFrom : Nat → List (String × ℚ) → List Slice
  | _, [] => []
  | n, (r, p) :: rest => ⟨n, r, p⟩ :: numberFrom (n + 1) rest

/-!
Semantics of the MILP model built in steps 4-6 of `solve_provisioning_ilp`
(ilp_solver.py lines 79-129): which valuations of the declared variables
satisfy all emitted constraints, and the objective value.  Constraints are
emitted exactly as the code does: the per-slice assignment constraint and
the per-worker capacity constraint are added only when their term list is
nonempty, and a `max_limit` cap only when the limit is set and ≥ 0.
-/

/-- The `A` terms of slice `s`'s assignment constraint (line 104). -/
def assignTerms (workerUnits : List WorkerUnit) (aP : List (Nat × String))
    (av : Nat → String → ℚ) (s : Slice) : List ℚ :=
  workerUnits.filterMap fun w =>
    if (s.id, w.id) ∈ aP then some (av s.id w.id) else none

/-- The `A·L` terms of worker `w`'s capacity constraint (line 110). -/
def capTerms (slices : List Slice) (profileData : List ((String × String) × ℚ))
    (aP : List (Nat × String)) (av : Nat → String → ℚ) (w : WorkerUnit) : List ℚ :=
  slices.filterMap fun s =>
    if (s.id, w.id) ∈ aP then
      some (av s.id w.id * (computeLoad profileData w s).getD 0)
    else none

/-- A valuation of the declared variables satisfies the built model:
`B_j` integer and ≥ 0, `A` binary on the declared pairs, and every
emitted assignment, capacity and cap constraint holds. -/
def modelFeasible (workerUnits : List WorkerUnit) (slices : List Slice)
    (profileData : List ((String × String) × ℚ)) (aP : List (Nat × String))
    (bv : String → ℚ) (av : Nat → String → ℚ) : Prop :=
  (∀ w ∈ workerUnits, 0 ≤ bv w.id ∧ ∃ z : ℤ, bv w.id = (z : ℚ)) ∧
  (∀ s ∈ slices, ∀ w ∈ workerUnits, (s.id, w.id) ∈ aP →
    (av s.id w.id = 0 ∨ av s.id w.id = 1)) ∧
  (∀ s ∈ slices, assignTerms workerUnits aP av s ≠ [] →
    (assignTerms workerUnits aP av s).sum = 1) ∧
  (∀ w ∈ workerUnits, capTerms slices profileData aP av w ≠ [] →
    (capTerms slices profileData aP av w).sum ≤ bv w.id) ∧
  (∀ w ∈ workerUnits, ∀ m, w.maxLimit = some m → 0 ≤ m → bv w.id ≤ (m : ℚ))

/-- The objective `Σ cost_j · B_j` (lines 127-129). -/
def modelCost (workerUnits : List WorkerUnit) (bv : String → ℚ) : ℚ :=
  (workerUnits.map fun w => w.cost * bv w.id).sum

/-! Concrete instance for the unassignable-demand scenario (spec S3):
demand `{R1: 1}`, empty profile, one worker. -/

/-- One worker of cost 1 with no cap. -/
def s3Workers : List WorkerUnit := [⟨"A", "gpu", 1, "srv", 1, none⟩]

/-- Demand `{R1: 1}`. -/
def s3Demand : List (String × ℚ) := [("R1", 1)]

/-- The slices the code builds for `s3Demand` with the default factor 2. -/
def s3Slices : List Slice := createSlices s3Demand 2

/-- The `A` keys the code creates for the empty profile. -/
def s3APairs : List (Nat × String) := aPairs s3Slices s3Workers []

/-- The backend answer an exact MILP solver gives on the built model:
`OPTIMAL` with every variable 0. -/
def s3ZeroOutcome : SolverOutcome := ⟨.optimal, fun _ => 0, fun _ _ => 0⟩

/-- The all-zero valuation is a minimum-cost feasible point of the model
the code builds for the S3 scenario. -/
def s3ZeroIsMinimal : Prop :=
  ∀ bv av, modelFeasible s3Workers s3Slices [] s3APairs bv av →
    modelCost s3Workers (fun _ => 0) ≤ modelCost s3Workers bv

theorem numberFrom_append (n : Nat) (l₁ l₂ : List (String × ℚ)) :
    numberFrom n (l₁ ++ l₂) = numberFrom n l₁ ++ numberFrom (n + l₁.length) l₂ := by
  induction l₁ generalizing n with
  | nil => simp [numberFrom]
  | cons hd tl ih =>
    obtain ⟨r, p⟩ := hd
    simp only [List.cons_append, numberFrom, ih, List.length_cons, List.cons.injEq,
      true_and]
    have harith : n + 1 + tl.length = n + (tl.length + 1) := by omega
    rw [← harith]
    exact ih (n + 1)

theorem numberFrom_replicate (n m : Nat) (r : String) (p : ℚ) :
    numberFrom n (List.replicate m (r, p))
      = (List.range m).map fun i => ⟨n + i, r, p⟩ := by
  induction m generalizing n with
  | zero => simp [numberFrom]
  | succ m ih =>
    rw [List.replicate_succ, List.range_succ_eq_map]
    simp only [numberFrom, ih, List.map_cons, List.map_map, List.cons.injEq]
    refine ⟨by simp, ?_⟩
    apply List.map_congr_left
    intro i _
    simp only [Function.comp_apply, Slice.mk.injEq, and_true]
    omega

theorem numberFrom_length (n : Nat) (l : List (String × ℚ)) :
    (numberFrom n l).length = l.length := by
  induction l generalizing n with
  | nil => rfl
  | cons hd tl ih => obtain ⟨r, p⟩ := hd; simp [numberFrom, ih]

theorem numberFrom_ids (n : Nat) (l : List (String × ℚ)) :
    (numberFrom n l).map Slice.id = (List.range l.length).map fun i => n + i := by
  induction l generalizing n with
  | nil => rfl
  | cons hd tl ih =>
    obtain ⟨r, p⟩ := hd
    rw [List.length_cons, List.range_succ_eq_map]
    simp only [numberFrom, List.map_cons, List.map_map, ih, List.cons.injEq]
    refine ⟨by omega, ?_⟩
    apply List.map_congr_left
    intro i _
    simp only [Function.comp_apply]
    omega

/-- The slicer ignores a nonpositive `sliceFactor`: it is clamped to 1 at
the first positive-rate entry and stays 1 afterwards. -/
theorem createSlicesAux_clamp (d : List (String × ℚ)) (sliceFactor : ℤ)
    (c : Nat) (hf : sliceFactor ≤ 0) :
    createSlicesAux d sliceFactor c = createSlicesAux d 1 c := by
  induction d generalizing c with
  | nil => rfl
  | cons hd tl ih =>
    obtain ⟨r, t⟩ := hd
    by_cases ht : t ≤ 0
    · simp only [createSlicesAux, if_pos ht]
      exact ih c
    · simp only [createSlicesAux, if_neg ht, if_pos hf,
        if_neg (by omega : ¬ (1 : ℤ) ≤ 0)]

/-- With a positive `sliceFactor` the slicer emits, entry by entry, exactly
the portions of `claimEntryPortions`, numbered consecutively from the
running counter. -/
theorem createSlicesAux_spec (d : List (String × ℚ)) (sliceFactor : ℤ)
    (c : Nat) (hf : 1 ≤ sliceFactor) :
    createSlicesAux d sliceFactor c
      = numberFrom c
          (d.flatMap fun e => (claimEntryPortions sliceFactor e.2).map fun p => (e.1, p)) := by
  induction d generalizing c with
  | nil => rfl
  | cons hd tl ih =>
    obtain ⟨r, t⟩ := hd
    have hk : max sliceFactor 1 = sliceFactor := max_eq_left hf
    rw [List.flatMap_cons]
    by_cases ht : t ≤ 0
    · have hhead : claimEntryPortions sliceFactor t = [] := by
        simp only [claimEntryPortions, hk, if_pos ht]
      rw [hhead]
      simp only [List.map_nil, List.nil_append, createSlicesAux, if_pos ht]
      exact ih c
    · simp only [createSlicesAux, if_neg ht, if_neg (by omega : ¬ sliceFactor ≤ 0)]
      by_cases hp : t / (sliceFactor : ℚ) < 1 / 1000000
      · by_cases hbig : t > 1 / 1000000000
        · have hhead : claimEntryPortions sliceFactor t = [t] := by
            simp only [claimEntryPortions, hk, if_neg ht, if_pos hp, if_pos hbig]
          rw [hhead]
          simp only [if_pos hp, if_pos hbig, List.map_cons, List.map_nil,
            List.cons_append, List.nil_append, numberFrom]
          exact congrArg _ (ih (c + 1))
        · have hhead : claimEntryPortions sliceFactor t = [] := by
            simp only [claimEntryPortions, hk, if_neg ht, if_pos hp, if_neg hbig]
          rw [hhead]
          simp only [if_pos hp, if_neg hbig, List.map_nil, List.nil_append]
          exact ih c
      · have hhead : claimEntryPortions sliceFactor t
            = List.replicate sliceFactor.toNat (t / (sliceFactor : ℚ)) := by
          simp only [claimEntryPortions, hk, if_neg ht, if_neg hp]
        rw [hhead]
        simp only [if_neg hp, List.map_replicate, numberFrom_append,
          numberFrom_replicate, List.length_replicate]
        exact congrArg _ (ih (c + sliceFactor.toNat))

/-- `claimEntryPortions` also ignores a nonpositive factor. -/
theorem claimEntryPortions_clamp (sliceFactor : ℤ) (t : ℚ)
    (hf : sliceFactor ≤ 0) :
    claimEntryPortions sliceFactor t = claimEntryPortions 1 t := by
  have h1 : max sliceFactor 1 = 1 := max_eq_right (by omega)
  simp only [claimEntryPortions, h1, max_self]

/-- If every demand entry has nonpositive rate, no slice is emitted. -/
theorem createSlicesAux_eq_nil (d : List (String × ℚ)) (f : ℤ) (c : Nat)
    (h : ∀ p ∈ d, p.2 ≤ 0) : createSlicesAux d f c = [] := by
  induction d generalizing c with
  | nil => rfl
  | cons hd tl ih =>
    obtain ⟨r, t⟩ := hd
    have ht : t ≤ 0 := h (r, t) (List.mem_cons_self _ _)
    simp only [createSlicesAux, if_pos ht]
    exact ih c (fun p hp => h p (List.mem_cons_of_mem _ hp))

/--
C3.  For every demand mapping and every sliceFactor, the slicer processes
each entry `(reqId, totalRate)` exactly as the claim states: with
`k = max(sliceFactor, 1)`, it emits `k` slices of portion `totalRate/k`
when `totalRate/k ≥ 1e-6`, one slice of portion `totalRate` when
`totalRate/k < 1e-6 < totalRate`-ish (`totalRate > 1e-9`), and nothing for
`totalRate ≤ 1e-9` or `totalRate ≤ 0`; the emitted slices carry contiguous
integer ids `0, 1, 2, …` in emission order.
-/
theorem slicer_matches_claimed_portions (d : List (String × ℚ)) (sliceFactor : ℤ) :
    createSlices d sliceFactor
      = numberFrom 0
          (d.flatMap fun e => (claimEntryPortions sliceFactor e.2).map fun p => (e.1, p)) ∧
    (createSlices d sliceFactor).map Slice.id
      = List.range (createSlices d sliceFactor).length := by
  have hmain : createSlices d sliceFactor
      = numberFrom 0
          (d.flatMap fun e => (claimEntryPortions sliceFactor e.2).map fun p => (e.1, p)) := by
    rcases le_or_lt sliceFactor 0 with hf | hf
    · rw [createSlices, createSlicesAux_clamp d sliceFactor 0 hf,
        show createSlicesAux d 1 0 = _ from createSlicesAux_spec d 1 0 le_rfl]
      have hfun : (fun e : String × ℚ => (claimEntryPortions 1 e.2).map fun p => (e.1, p))
          = fun e : String × ℚ => (claimEntryPortions sliceFactor e.2).map fun p => (e.1, p) :=
        funext fun e => by rw [claimEntryPortions_clamp sliceFactor e.2 hf]
      rw [hfun]
    · exact createSlicesAux_spec d sliceFactor 0 (by omega)
  refine ⟨hmain, ?_⟩
  rw [hmain, numberFrom_ids, numberFrom_length]
  simp

/--
C9.  The dataset bucket function maps `n ≤ 1` to `"0-1"` and any other `n`
to `"lo-hi"` with `lo = 2^⌊log2 n⌋` and `hi = 2^(⌊log2 n⌋+1) − 1`; the
exponent is pinned down by `2^k ≤ n < 2^(k+1)`.
-/
theorem bucket_matches_claim (n : Nat) :
    (n ≤ 1 → getPowerOfTwoBucket n = "0-1") ∧
    (2 ≤ n → ∃ k, 2 ^ k ≤ n ∧ n < 2 ^ (k + 1) ∧
      getPowerOfTwoBucket n = toString (2 ^ k) ++ "-" ++ toString (2 ^ (k + 1) - 1)) := by
  constructor
  · intro h
    simp [getPowerOfTwoBucket, h]
  · intro h
    refine ⟨Nat.log2 n, ?_, ?_, ?_⟩
    · exact (Nat.le_log2 (by omega)).mp le_rfl
    · by_contra hc
      push_neg at hc
      have := (Nat.le_log2 (by omega : n ≠ 0)).mpr hc
      omega
    · have hn : ¬ n ≤ 1 := by omega
      unfold getPowerOfTwoBucket
      rw [if_neg hn]

/-- Witness for C9 at `n = 1` and `n = 5`. -/
theorem bucket_matches_claim_witness :
    getPowerOfTwoBucket 1 = "0-1" ∧
    (∃ k, 2 ^ k ≤ 5 ∧ 5 < 2 ^ (k + 1) ∧
      getPowerOfTwoBucket 5 = toString (2 ^ k) ++ "-" ++ toString (2 ^ (k + 1) - 1)) :=
  ⟨(bucket_matches_claim 1).1 (by decide), (bucket_matches_claim 5).2 (by decide)⟩

/--
C4.  If every demand entry has rate ≤ 0 (in particular if the demand is
empty), `solve_provisioning_ilp` returns all-zero counts, an empty
assignment map and an empty slice list, and the result does not depend on
the backend outcome at all (the solver is not consulted).
-/
theorem empty_demand_zero_plan (workerUnits : List WorkerUnit)
    (profileData : List ((String × String) × ℚ)) (distributionData : List (String × ℚ))
    (sliceFactor : ℤ) (outcome : SolverOutcome)
    (h : ∀ p ∈ distributionData, p.2 ≤ 0) :
    solveProvisioningIlp workerUnits profileData distributionData sliceFactor outcome
      = (some (workerUnits.map fun w => (w.id, (0 : ℤ))), some [], []) := by
  have hs : createSlices distributionData sliceFactor = [] :=
    createSlicesAux_eq_nil distributionData sliceFactor 0 h
  simp [solveProvisioningIlp, hs]

/-- Witness for C4: one worker, one zero-rate entry, arbitrary backend. -/
theorem empty_demand_zero_plan_witness :
    solveProvisioningIlp [⟨"A", "gpu", 1, "srv", 1, none⟩] [] [("R1", 0)] 2
        ⟨.infeasible, fun _ => 37, fun _ _ => 37⟩
      = (some [("A", 0)], some [], []) := by
  have h := empty_demand_zero_plan [⟨"A", "gpu", 1, "srv", 1, none⟩] [] [("R1", 0)] 2
    ⟨.infeasible, fun _ => 37, fun _ _ => 37⟩
    (by intro p hp; rw [List.mem_singleton] at hp; subst hp; norm_num)
  simpa using h

/--
C2 (amended).  No input validation happens before the model is built:
a `sliceFactor < 1` is silently clamped to 1 (the whole call behaves
exactly as with `sliceFactor = 1`), and a demand entry with nonpositive
rate is silently skipped (the call behaves as if the entry were absent).
-/
theorem invalid_input_is_clamped_not_rejected (workerUnits : List WorkerUnit)
    (profileData : List ((String × String) × ℚ)) (distributionData : List (String × ℚ))
    (sliceFactor : ℤ) (outcome : SolverOutcome) (reqId : String) (rate : ℚ)
    (hf : sliceFactor < 1) (hr : rate ≤ 0) :
    solveProvisioningIlp workerUnits profileData distributionData sliceFactor outcome
      = solveProvisioningIlp workerUnits profileData distributionData 1 outcome ∧
    solveProvisioningIlp workerUnits profileData ((reqId, rate) :: distributionData)
        sliceFactor outcome
      = solveProvisioningIlp workerUnits profileData distributionData sliceFactor outcome := by
  constructor
  · have hc : createSlices distributionData sliceFactor = createSlices distributionData 1 :=
      createSlicesAux_clamp distributionData sliceFactor 0 (by omega)
    simp only [solveProvisioningIlp, hc]
  · have hc : createSlices ((reqId, rate) :: distributionData) sliceFactor
        = createSlices distributionData sliceFactor := by
      simp only [createSlices, createSlicesAux, if_pos hr]
    simp only [solveProvisioningIlp, hc]

/--
C2 (counterexample to the claim as stated).  A call with
`sliceFactor = 0 < 1` is not rejected: the model is built, the backend is
consulted, and a full plan is returned.
-/
theorem invalid_input_counterexample :
    solveProvisioningIlp [⟨"A", "gpu", 1, "srv", 1, none⟩] [(("A", "R1"), 5)]
        [("R1", 1)] 0 ⟨.optimal, fun _ => 1, fun _ _ => 1⟩
      = (some [("A", 1)], some [(0, "A")], [⟨0, "R1", 1⟩]) := by
  norm_num [solveProvisioningIlp, createSlices, createSlicesAux, List.range_succ,
    aPairs, computeLoad, List.lookup, List.flatMap, List.filterMap, processResults,
    List.find?, Int.ceil_eq_iff]

/-- Witness for the amended C2 at a concrete call. -/
theorem invalid_input_is_clamped_witness :
    (solveProvisioningIlp [⟨"A", "gpu", 1, "srv", 1, none⟩] [(("A", "R1"), 5)]
        [("R1", 1)] 0 ⟨.optimal, fun _ => 1, fun _ _ => 1⟩
      = solveProvisioningIlp [⟨"A", "gpu", 1, "srv", 1, none⟩] [(("A", "R1"), 5)]
        [("R1", 1)] 1 ⟨.optimal, fun _ => 1, fun _ _ => 1⟩) ∧
    (solveProvisioningIlp [⟨"A", "gpu", 1, "srv", 1, none⟩] [(("A", "R1"), 5)]
        [("R2", -3), ("R1", 1)] 0 ⟨.optimal, fun _ => 1, fun _ _ => 1⟩
      = solveProvisioningIlp [⟨"A", "gpu", 1, "srv", 1, none⟩] [(("A", "R1"), 5)]
        [("R1", 1)] 0 ⟨.optimal, fun _ => 1, fun _ _ => 1⟩) :=
  invalid_input_is_clamped_not_rejected [⟨"A", "gpu", 1, "srv", 1, none⟩]
    [(("A", "R1"), 5)] [("R1", 1)] 0 ⟨.optimal, fun _ => 1, fun _ _ => 1⟩
    "R2" (-3) (by norm_num) (by norm_num)

/--
C7.  Whenever slices exist (so the backend is consulted), the driver
returns a plan exactly when the backend status is `OPTIMAL`; every other
status yields `(None, None, slices)` with the already-computed slice list.
-/
theorem only_optimal_yields_plan (workerUnits : List WorkerUnit)
    (profileData : List ((String × String) × ℚ)) (distributionData : List (String × ℚ))
    (sliceFactor : ℤ) (outcome : SolverOutcome)
    (hne : createSlices distributionData sliceFactor ≠ []) :
    (((solveProvisioningIlp workerUnits profileData distributionData sliceFactor outcome).1.isSome ∧
      (solveProvisioningIlp workerUnits profileData distributionData sliceFactor outcome).2.1.isSome)
      ↔ outcome.status = .optimal) ∧
    (outcome.status ≠ .optimal →
      solveProvisioningIlp workerUnits profileData distributionData sliceFactor outcome
        = (none, none, createSlices distributionData sliceFactor)) := by
  have hlen : ¬ (createSlices distributionData sliceFactor).length = 0 := by
    simpa [List.length_eq_zero] using hne
  obtain ⟨st, bv, av⟩ := outcome
  cases st <;> simp [solveProvisioningIlp, hlen, processResults]

/-- Witness for C7: a non-`OPTIMAL` status on a nonempty slice list. -/
theorem only_optimal_yields_plan_witness :
    (((solveProvisioningIlp [] [] [("R1", 1)] 2 ⟨.infeasible, fun _ => 0, fun _ _ => 0⟩).1.isSome ∧
      (solveProvisioningIlp [] [] [("R1", 1)] 2 ⟨.infeasible, fun _ => 0, fun _ _ => 0⟩).2.1.isSome)
      ↔ (SolverOutcome.mk .infeasible (fun _ => 0) (fun _ _ => 0)).status = .optimal) ∧
    ((SolverOutcome.mk .infeasible (fun _ => 0) (fun _ _ => 0)).status ≠ .optimal →
      solveProvisioningIlp [] [] [("R1", 1)] 2 ⟨.infeasible, fun _ => 0, fun _ _ => 0⟩
        = (none, none, createSlices [("R1", 1)] 2)) :=
  only_optimal_yields_plan [] [] [("R1", 1)] 2
    ⟨.infeasible, fun _ => 0, fun _ _ => 0⟩
    (by norm_num [createSlices, createSlicesAux, List.range_succ])

/--
C10.  Whenever `solve_provisioning_ilp` returns counts (on either return
path), their key list is exactly the worker id list, in order, and —
provided the backend reports values within the declared bounds
`B_j ∈ [0, ∞)` — every count is a nonnegative integer.
-/
theorem counts_cover_workers_nonneg (workerUnits : List WorkerUnit)
    (profileData : List ((String × String) × ℚ)) (distributionData : List (String × ℚ))
    (sliceFactor : ℤ) (outcome : SolverOutcome)
    (hb : ∀ wid, 0 ≤ outcome.bValue wid) (counts : List (String × ℤ))
    (hc : (solveProvisioningIlp workerUnits profileData distributionData
        sliceFactor outcome).1 = some counts) :
    counts.map Prod.fst = workerUnits.map WorkerUnit.id ∧ ∀ p ∈ counts, 0 ≤ p.2 := by
  unfold solveProvisioningIlp at hc
  dsimp only at hc
  split at hc
  · simp only [Option.some.injEq] at hc
    subst hc
    constructor
    · simp [List.map_map, Function.comp_def]
    · intro p hp
      obtain ⟨w, _, rfl⟩ := List.mem_map.mp hp
      exact le_refl 0
  · unfold processResults at hc
    split at hc
    · simp only [Option.some.injEq] at hc
      subst hc
      constructor
      · simp [List.map_map, Function.comp_def]
      · intro p hp
        obtain ⟨w, _, rfl⟩ := List.mem_map.mp hp
        have h1 : ((-1 : ℤ) : ℚ) < outcome.bValue w.id - 1 / 1000000 := by
          have := hb w.id
          push_cast
          linarith
        have h2 : (-1 : ℤ) < ⌈outcome.bValue w.id - 1 / 1000000⌉ := Int.lt_ceil.mpr h1
        simp only [Prod.snd]
        omega
    · simp at hc

/--
C5.  For a slice `s` and worker `w`, the derived load is
`s.ratePortion / P[w.id, s.requestTypeId]` when the profile has that key
with a positive value, and the infinity sentinel (`none`) otherwise; and
an `A` variable key exists for `(s, w)` exactly when the load is finite.
-/
theorem load_matrix_matches_claim (profileData : List ((String × String) × ℚ))
    (slices : List Slice) (workerUnits : List WorkerUnit) (s : Slice) (w : WorkerUnit)
    (hs : s ∈ slices) (hw : w ∈ workerUnits)
    (hns : (slices.map Slice.id).Nodup) (hnw : (workerUnits.map WorkerUnit.id).Nodup) :
    (∀ t, profileData.lookup (w.id, s.requestTypeId) = some t → 0 < t →
        computeLoad profileData w s = some (s.ratePortion / t)) ∧
    (profileData.lookup (w.id, s.requestTypeId) = none →
        computeLoad profileData w s = none) ∧
    (∀ t, profileData.lookup (w.id, s.requestTypeId) = some t → t ≤ 0 →
        computeLoad profileData w s = none) ∧
    ((s.id, w.id) ∈ aPairs slices workerUnits profileData
        ↔ (computeLoad profileData w s).isSome) := by
  refine ⟨?_, ?_, ?_, ?_, ?_⟩
  · intro t ht hpos
    simp [computeLoad, ht, hpos]
  · intro ht
    simp [computeLoad, ht]
  · intro t ht hnonpos
    simp [computeLoad, ht, if_neg (not_lt.mpr hnonpos)]
  · intro hmem
    rw [aPairs, List.mem_flatMap] at hmem
    obtain ⟨s2, hs2, hmem2⟩ := hmem
    rw [List.mem_filterMap] at hmem2
    obtain ⟨w2, hw2, heq⟩ := hmem2
    by_cases hload : (computeLoad profileData w2 s2).isSome
    · rw [if_pos hload] at heq
      simp only [Option.some.injEq, Prod.mk.injEq] at heq
      have hs2eq : s2 = s := List.inj_on_of_nodup_map hns hs2 hs heq.1
      have hw2eq : w2 = w := List.inj_on_of_nodup_map hnw hw2 hw heq.2
      rw [hs2eq, hw2eq] at hload
      exact hload
    · rw [if_neg hload] at heq
      exact absurd heq (by simp)
  · intro hload
    rw [aPairs, List.mem_flatMap]
    exact ⟨s, hs, List.mem_filterMap.mpr ⟨w, hw, by rw [if_pos hload]⟩⟩

/-- Witness for C5: a present, positive profile entry and its `A` key. -/
theorem load_matrix_matches_claim_witness :
    computeLoad [(("A", "R1"), (5 : ℚ))] ⟨"A", "gpu", 1, "srv", 1, none⟩ ⟨0, "R1", 1⟩
      = some (1 / 5) ∧
    (0, "A") ∈ aPairs [⟨0, "R1", 1⟩] [⟨"A", "gpu", 1, "srv", 1, none⟩]
        [(("A", "R1"), (5 : ℚ))] := by
  have h := load_matrix_matches_claim [(("A", "R1"), 5)] [⟨0, "R1", 1⟩]
    [⟨"A", "gpu", 1, "srv", 1, none⟩] ⟨0, "R1", 1⟩ ⟨"A", "gpu", 1, "srv", 1, none⟩
    (by simp) (by simp) (by simp) (by simp)
  have hload := h.1 5 (by norm_num [List.lookup]) (by norm_num)
  refine ⟨by simpa using hload, h.2.2.2.mpr ?_⟩
  rw [hload]
  rfl

/--
C6 (amended).  On an `OPTIMAL` backend answer, counts are
`⌈B_j − 1e-6⌉` for every worker; a slice whose unique above-0.5 `A`
variable belongs to worker `w` is assigned to `w`; but when no `A`
variable of a slice exceeds 0.5 the slice is silently dropped from the
assignment map and a plan is still returned — the result is not treated
as `MODEL_INVALID`.
-/
theorem optimal_extraction_amended (workerUnits : List WorkerUnit) (slices : List Slice)
    (aP : List (Nat × String)) (bv : String → ℚ) (av : Nat → String → ℚ) :
    (processResults workerUnits slices aP ⟨.optimal, bv, av⟩).1
        = some (workerUnits.map fun w => (w.id, ⌈bv w.id - 1 / 1000000⌉)) ∧
    (∀ s ∈ slices, ∀ w ∈ workerUnits,
        (s.id, w.id) ∈ aP → av s.id w.id > 1 / 2 →
        (∀ w2 ∈ workerUnits, (s.id, w2.id) ∈ aP → av s.id w2.id > 1 / 2 → w2.id = w.id) →
        ∃ asg, (processResults workerUnits slices aP ⟨.optimal, bv, av⟩).2.1 = some asg ∧
          (s.id, w.id) ∈ asg) ∧
    ((∀ s ∈ slices, ∀ w ∈ workerUnits,
        ¬((s.id, w.id) ∈ aP ∧ av s.id w.id > 1 / 2)) →
      (processResults workerUnits slices aP ⟨.optimal, bv, av⟩).2.1 = some []) := by
  refine ⟨rfl, ?_, ?_⟩
  · intro s hs w hw hmem hgt huniq
    refine ⟨_, rfl, ?_⟩
    rw [List.mem_filterMap]
    refine ⟨s, hs, ?_⟩
    have hexists : (workerUnits.find? fun w2 =>
        decide ((s.id, w2.id) ∈ aP) && decide (av s.id w2.id > 1 / 2)).isSome := by
      rw [List.find?_isSome]
      exact ⟨w, hw, by
        simp only [Bool.and_eq_true, decide_eq_true_eq]
        exact ⟨hmem, hgt⟩⟩
    obtain ⟨b, hfind⟩ := Option.isSome_iff_exists.mp hexists
    have hbmem : b ∈ workerUnits := List.mem_of_find?_eq_some hfind
    have hpb := List.find?_some hfind
    simp only [Bool.and_eq_true, decide_eq_true_eq] at hpb
    have hbid : b.id = w.id := huniq b hbmem hpb.1 hpb.2
    rw [hfind]
    simp [hbid]
  · intro hnone
    have hfind : ∀ s ∈ slices, (workerUnits.find? fun w2 =>
        decide ((s.id, w2.id) ∈ aP) && decide (av s.id w2.id > 1 / 2)) = none := by
      intro s hs
      rw [List.find?_eq_none]
      intro w2 hw2
      simp only [Bool.and_eq_true, decide_eq_true_eq, not_and]
      intro h1 h2
      exact hnone s hs w2 hw2 ⟨h1, h2⟩
    show some _ = some []
    rw [Option.some.injEq, List.filterMap_eq_nil_iff]
    intro s hs
    rw [hfind s hs]
    rfl

/-- Witness for the amended C6: an integral `OPTIMAL` answer yields the
rounded count and the unique above-0.5 assignment. -/
theorem optimal_extraction_amended_witness :
    (processResults [⟨"A", "gpu", 1, "srv", 1, none⟩] [⟨0, "R1", 1⟩] [(0, "A")]
        ⟨.optimal, fun _ => 1, fun _ _ => 1⟩).1
      = some [("A", ⌈(1 : ℚ) - 1 / 1000000⌉)] ∧
    ∃ asg, (processResults [⟨"A", "gpu", 1, "srv", 1, none⟩] [⟨0, "R1", 1⟩] [(0, "A")]
        ⟨.optimal, fun _ => 1, fun _ _ => 1⟩).2.1 = some asg ∧ (0, "A") ∈ asg := by
  have h := optimal_extraction_amended [⟨"A", "gpu", 1, "srv", 1, none⟩] [⟨0, "R1", 1⟩]
    [(0, "A")] (fun _ => 1) (fun _ _ => 1)
  refine ⟨by simpa using h.1, ?_⟩
  exact h.2.1 ⟨0, "R1", 1⟩ (by simp) ⟨"A", "gpu", 1, "srv", 1, none⟩ (by simp)
    (by simp) (by norm_num)
    (fun w2 hw2 _ _ => by
      rw [List.mem_singleton] at hw2
      rw [hw2])

/--
C6 (counterexample to the claim as stated).  With an `OPTIMAL` status and
every `A` value fractional (2/5, not above 0.5), the code still returns a
plan — counts and an (empty) assignment map — instead of treating the
result as `MODEL_INVALID`.
-/
theorem optimal_extraction_counterexample :
    ((2 : ℚ) / 5 ≤ 1 / 2) ∧
    processResults [⟨"A", "gpu", 1, "srv", 1, none⟩] [⟨0, "R1", 1⟩] [(0, "A")]
        ⟨.optimal, fun _ => 1, fun _ _ => 2 / 5⟩
      = (some [("A", 1)], some [], [⟨0, "R1", 1⟩]) := by
  constructor
  · norm_num
  · norm_num [processResults, List.filterMap, List.find?, Int.ceil_eq_iff]

/--
C1.  On the S3 scenario (demand `{R1: 1}`, empty profile) the code does
not declare the model infeasible at build time and does not return an
`INFEASIBLE` failure: no slice has any candidate worker (no `A` key
exists), yet the model it builds — with the unassignable slices' missing
assignment constraints silently omitted — is feasible with every variable
0, that all-zero point is cost-minimal (so an exact backend reports
`OPTIMAL` with value 0), and the driver then returns a plan with zero
counts and an empty assignment map instead of a failure.
-/
theorem unassignable_demand_divergence :
    s3APairs = [] ∧
    modelFeasible s3Workers s3Slices [] s3APairs (fun _ => 0) (fun _ _ => 0) ∧
    s3ZeroIsMinimal ∧
    solveProvisioningIlp s3Workers [] s3Demand 2 s3ZeroOutcome
      = (some [("A", 0)], some [], s3Slices) := by
  have hslices : s3Slices = [⟨0, "R1", 1 / 2⟩, ⟨1, "R1", 1 / 2⟩] := by
    norm_num [s3Slices, s3Demand, createSlices, createSlicesAux, List.range_succ,
      (show Int.toNat 2 = 2 from rfl)]
  have hAP : s3APairs = [] := by
    rw [s3APairs, hslices]
    norm_num [s3Workers, aPairs, computeLoad, List.lookup, List.flatMap,
      List.filterMap]
  refine ⟨hAP, ?_, ?_, ?_⟩
  · refine ⟨?_, ?_, ?_, ?_, ?_⟩
    · intro w hw
      exact ⟨le_refl 0, 0, by norm_num⟩
    · intro s hs w hw hmem
      rw [hAP] at hmem
      simp at hmem
    · intro s hs hne
      exfalso
      apply hne
      rw [hAP]
      simp [assignTerms, s3Workers]
    · intro w hw hne
      exfalso
      apply hne
      rw [hAP, hslices]
      simp [capTerms]
    · intro w hw m hm
      rw [s3Workers, List.mem_singleton] at hw
      rw [hw] at hm
      simp at hm
  · intro bv av hf
    have h0 : 0 ≤ bv "A" := by
      have := (hf.1 ⟨"A", "gpu", 1, "srv", 1, none⟩ (by simp [s3Workers])).1
      simpa using this
    have hzero : modelCost s3Workers (fun _ => 0) = 0 := by
      simp [modelCost, s3Workers]
    have hbv : modelCost s3Workers bv = bv "A" := by
      simp [modelCost, s3Workers]
    rw [hzero, hbv]
    exact h0
  · rw [hslices, show s3Workers = [⟨"A", "gpu", 1, "srv", 1, none⟩] from rfl,
      show s3Demand = [("R1", 1)] from rfl]
    norm_num [solveProvisioningIlp, createSlices, createSlicesAux, List.range_succ,
      (show Int.toNat 2 = 2 from rfl), aPairs, computeLoad, List.lookup,
      List.flatMap, List.filterMap, processResults, List.find?, s3ZeroOutcome,
      Int.ceil_eq_iff]

/-- Witness for C10 on the `OPTIMAL` path. -/
theorem counts_cover_workers_nonneg_witness :
    [("A", (1 : ℤ))].map Prod.fst
        = [(⟨"A", "gpu", 1, "srv", 1, none⟩ : WorkerUnit)].map WorkerUnit.id ∧
    ∀ p ∈ [("A", (1 : ℤ))], 0 ≤ p.2 :=
  counts_cover_workers_nonneg [⟨"A", "gpu", 1, "srv", 1, none⟩] [(("A", "R1"), 5)]
    [("R1", 1)] 1 ⟨.optimal, fun _ => 1, fun _ _ => 1⟩
    (fun _ => by norm_num) [("A", 1)]
    (by norm_num [solveProvisioningIlp, createSlices, createSlicesAux, List.range_succ,
      aPairs, computeLoad, List.lookup, List.flatMap, List.filterMap, processResults,
      List.find?, Int.ceil_eq_iff])

end IgWva
